import Mathlib

set_option linter.unusedVariables false

/-!
Verification of `tests/integration/state_utils.py` (`InitialStateHelper`).

The helper wraps a user state callback: it swallows the first state event for
every stateful (non-button) entity of the inventory, records the swallowed
states in `initial_states`, and resolves a one-shot future once every tracked
identity has reported.  We embed the class shallowly: its mutable attributes
become a record, the inner `wrapper` closure becomes a state-transformer, the
asyncio future becomes an `Option Bool` (`none` = pending, `some r` =
resolved with result `r`), and `Future.set_result`, which raises
`InvalidStateError` on an already-resolved future, becomes an `Except`.
-/

/-- Entity description as returned by `list_entities_services()`.  Only the
fields the helper reads are kept: `device_id` and `key` form the identity,
`object_id` is diagnostic, and `isButton` reflects `isinstance(entity,
ButtonInfo)` (buttons are stateless and excluded from tracking). -/
structure EntityInfo where
  device_id : Nat
  key : Nat
  object_id : String
  isButton : Bool
deriving DecidableEq, Repr

/-- A state event: identity tag `(device_id, key)` plus a payload the helper
never interprets. -/
structure EntityState where
  device_id : Nat
  key : Nat
  payload : Nat
deriving DecidableEq, Repr

/-- The identity tuple `(entity.device_id, entity.key)` built from an
inventory entry. -/
def idOfEntity (e : EntityInfo) : Nat × Nat := (e.device_id, e.key)

/-- The identity tuple `(state.device_id, state.key)` built from an event. -/
def idOfState (s : EntityState) : Nat × Nat := (s.device_id, s.key)

/-- `future.done()` for the modelled asyncio future. -/
def future_done (fut : Option Bool) : Bool := fut.isSome

/-- `future.set_result(r)`: raises `InvalidStateError` when the future is
already done, otherwise resolves it with `r`. -/
def future_set_result (fut : Option Bool) (r : Bool) : Except String (Option Bool) :=
  if future_done fut then Except.error "InvalidStateError" else Except.ok (some r)

/-- The mutable attributes of an `InitialStateHelper` instance.
`wait_initial_states` is the set of `(device_id, key)` tuples still awaiting
their initial state, `entities_by_id` the debug map from identity to entity,
`initial_states` the map from key to swallowed state, and
`initial_states_received` the completion future. -/
structure InitialStateHelper where
  wait_initial_states : Finset (Nat × Nat)
  entities_by_id : Nat × Nat → Option EntityInfo
  initial_states : Nat → Option EntityState
  initial_states_received : Option Bool

namespace InitialStateHelper

/-- The set comprehension seeding `_wait_initial_states`: identities of all
non-button entities. -/
def mkWaitSet (entities : List EntityInfo) : Finset (Nat × Nat) :=
  ((entities.filter (fun e => !e.isButton)).map idOfEntity).toFinset

/-- The dict comprehension building `_entities_by_id`: iterating the list in
order, each entry overwrites any earlier entry with the same identity. -/
def mkEntitiesById (entities : List EntityInfo) : Nat × Nat → Option EntityInfo :=
  entities.foldl
    (fun m e => fun i => if i = idOfEntity e then some e else m i)
    (fun _ => none)

/-- `InitialStateHelper.__init__`: seed the waiting set with the stateful
identities, build the debug map, start with an empty `initial_states`, create
the future, and resolve it immediately when nothing is waited for. -/
def init (entities : List EntityInfo) : InitialStateHelper :=
  { wait_initial_states := mkWaitSet entities
    entities_by_id := mkEntitiesById entities
    initial_states := fun _ => none
    initial_states_received :=
      if mkWaitSet entities = ∅ then some true else none }

/-- Result of one invocation of the wrapped callback: the helper state after
the call, the events handed to the user callback during the call (`[state]`
or `[]`), and whether `set_result` was invoked on the future. -/
structure WrapResult where
  post : InitialStateHelper
  forwarded : List EntityState
  set_result_called : Bool

/-- The inner `wrapper(state)` closure of `on_state_wrapper`, with the call
to `future.set_result` kept fallible exactly as in asyncio: the `done()`
guard is the only thing standing between the call and `InvalidStateError`. -/
def wrapperE (σ : InitialStateHelper) (state : EntityState) :
    Except String WrapResult :=
  let entity_id := (state.device_id, state.key)
  if entity_id ∈ σ.wait_initial_states then
    -- self.initial_states[state.key] = state
    let is' : Nat → Option EntityState :=
      fun k => if k = state.key then some state else σ.initial_states k
    -- self._wait_initial_states.discard(entity_id)
    let wait' := σ.wait_initial_states.erase entity_id
    if wait' = ∅ ∧ ¬ future_done σ.initial_states_received then
      match future_set_result σ.initial_states_received true with
      | Except.error e => Except.error e
      | Except.ok fut' =>
          Except.ok
            ⟨{ σ with
                wait_initial_states := wait'
                initial_states := is'
                initial_states_received := fut' }, [], true⟩
    else
      Except.ok
        ⟨{ σ with
            wait_initial_states := wait'
            initial_states := is' }, [], false⟩
  else
    Except.ok ⟨σ, [state], false⟩

/-- The same wrapper as a total function: in the branch that calls
`set_result` the `done()` guard already holds, so the future is simply
resolved. -/
def wrapper (σ : InitialStateHelper) (state : EntityState) : WrapResult :=
  let entity_id := (state.device_id, state.key)
  if entity_id ∈ σ.wait_initial_states then
    let is' : Nat → Option EntityState :=
      fun k => if k = state.key then some state else σ.initial_states k
    let wait' := σ.wait_initial_states.erase entity_id
    if wait' = ∅ ∧ ¬ future_done σ.initial_states_received then
      ⟨{ σ with
          wait_initial_states := wait'
          initial_states := is'
          initial_states_received := some true }, [], true⟩
    else
      ⟨{ σ with
          wait_initial_states := wait'
          initial_states := is' }, [], false⟩
  else
    ⟨σ, [state], false⟩

/-- Deliver a list of events through the wrapper in order, collecting the
events forwarded to the user callback. -/
def run (σ : InitialStateHelper) :
    List EntityState → InitialStateHelper × List EntityState
  | [] => (σ, [])
  | s :: rest =>
      let r := wrapper σ s
      let r2 := run r.post rest
      (r2.1, r.forwarded ++ r2.2)

/-- Errors `asyncio.wait_for` can surface. -/
inductive AsyncioError where
  | timeoutError
deriving DecidableEq, Repr

/-- `asyncio.wait_for(fut, timeout)`: an already-resolved future returns its
result at once; otherwise the outcome depends on whether the future is
resolved before the deadline, which real time decides — here that decision is
the boolean oracle `resolvesWithin`.  A future resolved later carries `true`,
the only value the helper ever sets. -/
def asyncio_wait_for (fut : Option Bool) (resolvesWithin : Bool) :
    Except AsyncioError Bool :=
  match fut with
  | some r => Except.ok r
  | none =>
      if resolvesWithin then Except.ok true
      else Except.error AsyncioError.timeoutError

/-- The default value of the `timeout` argument of
`wait_for_initial_states` (seconds). -/
def wait_for_initial_states_default_timeout : ℚ := 5

/-- `wait_for_initial_states(timeout)`: await the completion future under
`asyncio.wait_for`; a `TimeoutError` raised there propagates unchanged. -/
def wait_for_initial_states (σ : InitialStateHelper) (timeout : ℚ)
    (resolvesWithin : Bool) : Except AsyncioError Bool :=
  asyncio_wait_for σ.initial_states_received resolvesWithin

/-- Sample inventory entries and events instantiating the claims. -/
def entTemp : EntityInfo := ⟨1, 10, "temperature", false⟩

def entHumid : EntityInfo := ⟨1, 11, "humidity", false⟩

def entBtn : EntityInfo := ⟨1, 12, "restart_trigger", true⟩

def entSwitch : EntityInfo := ⟨2, 5, "switch", false⟩

def entShared1 : EntityInfo := ⟨1, 7, "alpha", false⟩

def entShared2 : EntityInfo := ⟨2, 7, "beta", false⟩

def entDupFirst : EntityInfo := ⟨1, 7, "dup_first", false⟩

def entDupSecond : EntityInfo := ⟨1, 7, "dup_second", false⟩

def evHumid : EntityState := ⟨1, 11, 100⟩

def evTemp : EntityState := ⟨1, 10, 200⟩

def evTemp2 : EntityState := ⟨1, 10, 300⟩

def evBtn : EntityState := ⟨1, 12, 400⟩

def evShared1 : EntityState := ⟨1, 7, 100⟩

def evShared2 : EntityState := ⟨2, 7, 200⟩

/-- An event whose identity is not currently waited for takes the forwarding
branch: the helper is untouched and the state goes to the user callback. -/
theorem wrapper_forward (σ : InitialStateHelper) (s : EntityState)
    (h : (s.device_id, s.key) ∉ σ.wait_initial_states) :
    wrapper σ s = ⟨σ, [s], false⟩ := by
  simp [wrapper, h]

/-- An event whose identity is waited for takes the swallowing branch:
the state is recorded under its key, the identity is erased, the debug map is
untouched, and nothing is forwarded. -/
theorem wrapper_swallow (σ : InitialStateHelper) (s : EntityState)
    (h : (s.device_id, s.key) ∈ σ.wait_initial_states) :
    (wrapper σ s).post.wait_initial_states
        = σ.wait_initial_states.erase (s.device_id, s.key) ∧
      (wrapper σ s).post.initial_states
        = (fun k => if k = s.key then some s else σ.initial_states k) ∧
      (wrapper σ s).post.entities_by_id = σ.entities_by_id ∧
      (wrapper σ s).forwarded = [] := by
  simp only [wrapper, if_pos h]
  split <;> simp

/-- After a wrapper call, the future is done exactly when it already was, or
the event was swallowed and emptied the waiting set. -/
theorem wrapper_done_iff (σ : InitialStateHelper) (s : EntityState) :
    future_done (wrapper σ s).post.initial_states_received = true ↔
      (future_done σ.initial_states_received = true ∨
        ((s.device_id, s.key) ∈ σ.wait_initial_states ∧
          σ.wait_initial_states.erase (s.device_id, s.key) = ∅)) := by
  by_cases h : (s.device_id, s.key) ∈ σ.wait_initial_states
  · simp only [wrapper, if_pos h]
    split
    · rename_i hc
      simp [future_done, h, hc.1]
    · rename_i hc
      rw [not_and_or, not_not] at hc
      constructor
      · intro hd
        exact Or.inl hd
      · rintro (hd | ⟨-, he⟩)
        · exact hd
        · rcases hc with hc | hc
          · exact absurd he hc
          · exact hc
  · simp [wrapper, h]

end InitialStateHelper

namespace InitialStateHelper

/-- The fallible wrapper never raises: the branch calling `set_result` is
guarded by `done()`, so it always returns the pure wrapper's result. -/
theorem wrapperE_ok (σ : InitialStateHelper) (s : EntityState) :
    wrapperE σ s = Except.ok (wrapper σ s) := by
  by_cases h : (s.device_id, s.key) ∈ σ.wait_initial_states
  · simp only [wrapperE, wrapper, if_pos h]
    split
    · rename_i hc
      rw [future_set_result, if_neg hc.2]
    · rfl
  · simp [wrapperE, wrapper, h]

/-- At construction the future is resolved exactly when the waiting set is
empty. -/
theorem init_done_iff (entities : List EntityInfo) :
    future_done (init entities).initial_states_received = true ↔
      (init entities).wait_initial_states = ∅ := by
  by_cases h : mkWaitSet entities = ∅ <;> simp [init, future_done, h]

/-- A done future at a reachable state means the waiting set is empty:
the property holds at construction and every wrapper call preserves it. -/
theorem wrapper_done_empty (σ : InitialStateHelper) (s : EntityState)
    (hinv : future_done σ.initial_states_received = true →
      σ.wait_initial_states = ∅)
    (hd : future_done (wrapper σ s).post.initial_states_received = true) :
    (wrapper σ s).post.wait_initial_states = ∅ := by
  rcases (wrapper_done_iff σ s).mp hd with hd0 | ⟨hmem, he⟩
  · have hempty := hinv hd0
    by_cases h : (s.device_id, s.key) ∈ σ.wait_initial_states
    · rw [((wrapper_swallow σ s) h).1, hempty]
      exact Finset.erase_empty _
    · rw [wrapper_forward σ s h]
      exact hempty
  · rw [((wrapper_swallow σ s) hmem).1]
    exact he

/-- Done-implies-empty is preserved along any delivered event trace. -/
theorem run_done_empty (σ : InitialStateHelper) (evs : List EntityState)
    (hinv : future_done σ.initial_states_received = true →
      σ.wait_initial_states = ∅)
    (hd : future_done (run σ evs).1.initial_states_received = true) :
    (run σ evs).1.wait_initial_states = ∅ := by
  induction evs generalizing σ with
  | nil => exact hinv hd
  | cons e rest ih =>
      exact ih (wrapper σ e).post (wrapper_done_empty σ e hinv) hd

end InitialStateHelper

namespace InitialStateHelper

/-- Delivering events with pairwise-distinct identities, all of them pending,
swallows every event: nothing is forwarded, the waiting set loses exactly
those identities, and the future ends done iff it already was done or a
delivered event emptied the waiting set. -/
theorem run_swallow (σ : InitialStateHelper) (evs : List EntityState)
    (hmem : ∀ e ∈ evs, (e.device_id, e.key) ∈ σ.wait_initial_states)
    (hnd : (evs.map idOfState).Nodup) :
    (run σ evs).2 = [] ∧
      (run σ evs).1.wait_initial_states
        = σ.wait_initial_states \ (evs.map idOfState).toFinset ∧
      (future_done (run σ evs).1.initial_states_received = true ↔
        (future_done σ.initial_states_received = true ∨
          (evs ≠ [] ∧ (run σ evs).1.wait_initial_states = ∅))) := by
  induction evs generalizing σ with
  | nil => refine ⟨rfl, by simp [run], by simp [run]⟩
  | cons e rest ih =>
      have hme : (e.device_id, e.key) ∈ σ.wait_initial_states := hmem e (by simp)
      obtain ⟨hw, hi, hm, hf⟩ := wrapper_swallow σ e hme
      rw [List.map_cons, List.nodup_cons] at hnd
      have hmem' : ∀ x ∈ rest,
          (x.device_id, x.key) ∈ (wrapper σ e).post.wait_initial_states := by
        intro x hx
        rw [hw]
        refine Finset.mem_erase.mpr ⟨?_, hmem x (List.mem_cons_of_mem _ hx)⟩
        intro hcontra
        have hceq : idOfState x = idOfState e := hcontra
        exact hnd.1 (hceq ▸ List.mem_map_of_mem idOfState hx)
      obtain ⟨ih1, ih2, ih3⟩ := ih (wrapper σ e).post hmem' hnd.2
      have hrun1 : (run σ (e :: rest)).1 = (run (wrapper σ e).post rest).1 := rfl
      have hwait : (run σ (e :: rest)).1.wait_initial_states
          = σ.wait_initial_states \
              ((e :: rest).map idOfState).toFinset := by
        rw [hrun1, ih2, hw]
        ext x
        simp only [Finset.mem_sdiff, Finset.mem_erase, List.map_cons,
          List.toFinset_cons, Finset.mem_insert, idOfState]
        tauto
      refine ⟨?_, hwait, ?_⟩
      · show (wrapper σ e).forwarded ++ (run (wrapper σ e).post rest).2 = []
        rw [hf, ih1]
        rfl
      · rw [hrun1, ih3, wrapper_done_iff σ e]
        have herase : (run (wrapper σ e).post rest).1.wait_initial_states
            = σ.wait_initial_states.erase (e.device_id, e.key) \
                (rest.map idOfState).toFinset := by
          rw [ih2, hw]
        by_cases hrest : rest = []
        · subst hrest
          simp only [List.map_nil, List.toFinset_nil, Finset.sdiff_empty] at herase
          rw [herase]
          simp [hme]
        · constructor
          · rintro ((hd | ⟨-, he⟩) | ⟨-, hwf⟩)
            · exact Or.inl hd
            · refine Or.inr ⟨by simp, ?_⟩
              rw [herase, he]
              exact Finset.empty_sdiff _
            · exact Or.inr ⟨by simp, hwf⟩
          · rintro (hd | ⟨-, hwf⟩)
            · exact Or.inl (Or.inl hd)
            · exact Or.inr ⟨hrest, hwf⟩

end InitialStateHelper

namespace InitialStateHelper

/-- One wrapper call never grows the waiting set, records a state under the
key of any identity it removes, and never erases a recorded state. -/
theorem wrapper_inv (σ : InitialStateHelper) (s : EntityState) :
    (wrapper σ s).post.wait_initial_states ⊆ σ.wait_initial_states ∧
      (∀ i ∈ σ.wait_initial_states,
        i ∉ (wrapper σ s).post.wait_initial_states →
          ((wrapper σ s).post.initial_states i.2).isSome = true) ∧
      (∀ k, (σ.initial_states k).isSome = true →
        ((wrapper σ s).post.initial_states k).isSome = true) := by
  by_cases h : (s.device_id, s.key) ∈ σ.wait_initial_states
  · obtain ⟨hw, hi, -, -⟩ := wrapper_swallow σ s h
    refine ⟨?_, ?_, ?_⟩
    · rw [hw]
      exact Finset.erase_subset _ _
    · intro i hiw hni
      rw [hw] at hni
      have hie : i = (s.device_id, s.key) := by
        by_contra hne
        exact hni (Finset.mem_erase.mpr ⟨hne, hiw⟩)
      subst hie
      rw [hi]
      simp
    · intro k hk
      rw [hi]
      by_cases hks : k = s.key <;> simp [hks, hk]
  · rw [wrapper_forward σ s h]
    exact ⟨Finset.Subset.refl _, fun i hiw hni => absurd hiw hni, fun k hk => hk⟩

/-- The single-call invariants of `wrapper_inv`, extended along a trace. -/
theorem run_inv (σ : InitialStateHelper) (evs : List EntityState) :
    (run σ evs).1.wait_initial_states ⊆ σ.wait_initial_states ∧
      (∀ i ∈ σ.wait_initial_states,
        i ∉ (run σ evs).1.wait_initial_states →
          ((run σ evs).1.initial_states i.2).isSome = true) ∧
      (∀ k, (σ.initial_states k).isSome = true →
        ((run σ evs).1.initial_states k).isSome = true) := by
  induction evs generalizing σ with
  | nil =>
      exact ⟨Finset.Subset.refl _, fun i hiw hni => absurd hiw hni, fun k hk => hk⟩
  | cons e rest ih =>
      obtain ⟨w1, w2, w3⟩ := wrapper_inv σ e
      obtain ⟨r1, r2, r3⟩ := ih (wrapper σ e).post
      have hrun1 : (run σ (e :: rest)).1 = (run (wrapper σ e).post rest).1 := rfl
      rw [hrun1]
      refine ⟨Finset.Subset.trans r1 w1, ?_, fun k hk => r3 k (w3 k hk)⟩
      intro i hiw hni
      by_cases hpost : i ∈ (wrapper σ e).post.wait_initial_states
      · exact r2 i hpost hni
      · exact r3 i.2 (w2 i hiw hpost)

/-- Folding the dict-building update over entries that never match `i`
leaves the map unchanged at `i`. -/
theorem foldl_update_notin (l : List EntityInfo)
    (m : Nat × Nat → Option EntityInfo) (i : Nat × Nat)
    (h : ∀ x ∈ l, idOfEntity x ≠ i) :
    l.foldl (fun m e => fun j => if j = idOfEntity e then some e else m j) m i
      = m i := by
  induction l generalizing m with
  | nil => rfl
  | cons e rest ih =>
      rw [List.foldl_cons, ih _ (fun x hx => h x (List.mem_cons_of_mem _ hx))]
      exact if_neg (fun hc => h e (List.mem_cons_self _ _) hc.symm)

/-- The dict comprehension retains the last entry with a given identity. -/
theorem mkEntitiesById_last (l : List EntityInfo) (e : EntityInfo)
    (l2 : List EntityInfo) (h : ∀ x ∈ l2, idOfEntity x ≠ idOfEntity e) :
    mkEntitiesById (l ++ e :: l2) (idOfEntity e) = some e := by
  unfold mkEntitiesById
  rw [List.foldl_append, List.foldl_cons, foldl_update_notin l2 _ _ h]
  exact if_pos rfl

/-- Membership in the seeded waiting set: exactly the identities of the
stateful (non-button) inventory entries. -/
theorem mem_mkWaitSet (entities : List EntityInfo) (i : Nat × Nat) :
    i ∈ mkWaitSet entities ↔
      ∃ e ∈ entities, e.isButton = false ∧ idOfEntity e = i := by
  unfold mkWaitSet
  simp only [List.mem_toFinset, List.mem_map, List.mem_filter,
    Bool.not_eq_true']
  constructor
  · rintro ⟨e, ⟨he, hb⟩, hid⟩
    exact ⟨e, he, hb, hid⟩
  · rintro ⟨e, he, hb, hid⟩
    exact ⟨e, ⟨he, hb⟩, hid⟩

end InitialStateHelper


open InitialStateHelper

/-- C1: delivering exactly one event per stateful identity of the inventory,
in any arrival order, leaves the waiting set empty, the completion future
resolved, and forwards none of those events to the user callback. -/
theorem spec_C1 (entities : List EntityInfo) (evs : List EntityState)
    (hnd : (evs.map idOfState).Nodup)
    (hcov : (evs.map idOfState).toFinset
      = (init entities).wait_initial_states) :
    (run (init entities) evs).1.wait_initial_states = ∅ ∧
      future_done (run (init entities) evs).1.initial_states_received
        = true ∧
      (run (init entities) evs).2 = [] := by
  have hmem : ∀ e ∈ evs,
      (e.device_id, e.key) ∈ (init entities).wait_initial_states := by
    intro e he
    rw [← hcov]
    exact List.mem_toFinset.mpr (List.mem_map_of_mem idOfState he)
  obtain ⟨h1, h2, h3⟩ := run_swallow (init entities) evs hmem hnd
  have hempty : (run (init entities) evs).1.wait_initial_states = ∅ := by
    rw [h2, hcov]
    exact Finset.sdiff_self _
  refine ⟨hempty, ?_, h1⟩
  by_cases hevs : evs = []
  · subst hevs
    have hw0 : (init entities).wait_initial_states = ∅ := by
      rw [← hcov]
      simp
    exact h3.mpr (Or.inl ((init_done_iff entities).mpr hw0))
  · exact h3.mpr (Or.inr ⟨hevs, hempty⟩)

/-- C1 witness at a concrete inventory and delivery order. -/
theorem spec_C1_witness :
    (run (init [entTemp, entHumid, entBtn])
        [evHumid, evTemp]).1.wait_initial_states = ∅ ∧
      future_done (run (init [entTemp, entHumid, entBtn])
        [evHumid, evTemp]).1.initial_states_received = true ∧
      (run (init [entTemp, entHumid, entBtn]) [evHumid, evTemp]).2 = [] :=
  spec_C1 [entTemp, entHumid, entBtn] [evHumid, evTemp]
    (by decide) (by decide)

/-- C2 counterexample: two pending identities on different devices share
key 7; the second arrival overwrites the entry the first arrival stored
under key 7, so a key that already has an entry is overwritten and the
first arrival's payload does not remain. -/
theorem spec_C2_counterexample :
    (run (init [entShared1, entShared2]) [evShared1]).1.initial_states 7
        = some evShared1 ∧
      (run (init [entShared1, entShared2])
          [evShared1, evShared2]).1.initial_states 7 = some evShared2 ∧
      evShared1 ≠ evShared2 := by
  decide

/-- C2 (amended): insertion into the initial-snapshot map is unconditional
for pending identities — the event is always stored under `state.key`,
overwriting any existing entry (last write wins). -/
theorem spec_C2 (σ : InitialStateHelper) (s : EntityState)
    (h : (s.device_id, s.key) ∈ σ.wait_initial_states) :
    (wrapper σ s).post.initial_states s.key = some s := by
  rw [(wrapper_swallow σ s h).2.1]
  simp

/-- C2 witness at a concrete pending identity. -/
theorem spec_C2_witness :
    (wrapper (init [entShared1, entShared2]) evShared1).post.initial_states
      evShared1.key = some evShared1 :=
  spec_C2 (init [entShared1, entShared2]) evShared1 (by decide)

/-- C3: an event whose identity is not pending is forwarded exactly once,
unchanged, and the waiting set, the snapshot map and the future are left
untouched. -/
theorem spec_C3 (σ : InitialStateHelper) (s : EntityState)
    (h : (s.device_id, s.key) ∉ σ.wait_initial_states) :
    (wrapper σ s).forwarded = [s] ∧
      (wrapper σ s).post.wait_initial_states = σ.wait_initial_states ∧
      (wrapper σ s).post.initial_states = σ.initial_states ∧
      (wrapper σ s).post.initial_states_received
        = σ.initial_states_received := by
  rw [wrapper_forward σ s h]
  exact ⟨rfl, rfl, rfl, rfl⟩

/-- C3 witness: a button event (never tracked) is forwarded unchanged. -/
theorem spec_C3_witness :
    (wrapper (init [entTemp, entHumid, entBtn]) evBtn).forwarded = [evBtn] ∧
      (wrapper (init [entTemp, entHumid, entBtn]) evBtn).post.wait_initial_states
        = (init [entTemp, entHumid, entBtn]).wait_initial_states ∧
      (wrapper (init [entTemp, entHumid, entBtn]) evBtn).post.initial_states
        = (init [entTemp, entHumid, entBtn]).initial_states ∧
      (wrapper (init [entTemp, entHumid, entBtn]) evBtn).post.initial_states_received
        = (init [entTemp, entHumid, entBtn]).initial_states_received :=
  spec_C3 (init [entTemp, entHumid, entBtn]) evBtn (by decide)

/-- C4: with no stateful entity in the inventory the constructor resolves
the future synchronously, and a subsequent wait returns at once with `ok`
regardless of the timeout or of later resolution. -/
theorem spec_C4 (entities : List EntityInfo) (timeout : ℚ)
    (resolvesWithin : Bool) (h : ∀ e ∈ entities, e.isButton = true) :
    (init entities).initial_states_received = some true ∧
      wait_for_initial_states (init entities) timeout resolvesWithin
        = Except.ok true := by
  have hfil : entities.filter (fun e => !e.isButton) = [] :=
    List.filter_eq_nil_iff.mpr (fun e he => by simp [h e he])
  have hempty : mkWaitSet entities = ∅ := by
    unfold mkWaitSet
    rw [hfil]
    rfl
  refine ⟨by simp [init, hempty], ?_⟩
  have hrec : (init entities).initial_states_received = some true := by
    simp [init, hempty]
  have hdef : wait_for_initial_states (init entities) timeout resolvesWithin
      = asyncio_wait_for (init entities).initial_states_received
          resolvesWithin := rfl
  rw [hdef, hrec]
  rfl

/-- C4 witness: a button-only inventory. -/
theorem spec_C4_witness :
    (init [entBtn]).initial_states_received = some true ∧
      wait_for_initial_states (init [entBtn]) 5 false = Except.ok true :=
  spec_C4 [entBtn] 5 false (by decide)

/-- C5: the waiting set is seeded with exactly the stateful identities of
the inventory, every wrapper call leaves it equal to its prior value or to
its prior value minus the processed event's identity, and no call ever adds
an element. -/
theorem spec_C5 (entities : List EntityInfo) (σ : InitialStateHelper)
    (s : EntityState) :
    (∀ i, i ∈ (init entities).wait_initial_states ↔
        ∃ e ∈ entities, e.isButton = false ∧ idOfEntity e = i) ∧
      ((wrapper σ s).post.wait_initial_states = σ.wait_initial_states ∨
        ((s.device_id, s.key) ∈ σ.wait_initial_states ∧
          (wrapper σ s).post.wait_initial_states
            = σ.wait_initial_states.erase (s.device_id, s.key))) ∧
      (wrapper σ s).post.wait_initial_states ⊆ σ.wait_initial_states := by
  refine ⟨fun i => mem_mkWaitSet entities i, ?_, (wrapper_inv σ s).1⟩
  by_cases h : (s.device_id, s.key) ∈ σ.wait_initial_states
  · exact Or.inr ⟨h, (wrapper_swallow σ s h).1⟩
  · rw [wrapper_forward σ s h]
    exact Or.inl rfl

/-- C6: once the future is resolved it stays resolved, the guarded
`set_result` call cannot hit the error branch (the fallible wrapper agrees
with the total one), no wrapper call invokes `set_result` when the future is
already done, and later events do not change what a subsequent wait
observes. -/
theorem spec_C6 (σ : InitialStateHelper) (s : EntityState) (timeout : ℚ)
    (resolvesWithin : Bool)
    (h : future_done σ.initial_states_received = true) :
    wrapperE σ s = Except.ok (wrapper σ s) ∧
      (wrapper σ s).post.initial_states_received
        = σ.initial_states_received ∧
      future_done (wrapper σ s).post.initial_states_received = true ∧
      (wrapper σ s).set_result_called = false ∧
      wait_for_initial_states (wrapper σ s).post timeout resolvesWithin
        = wait_for_initial_states σ timeout resolvesWithin := by
  refine ⟨wrapperE_ok σ s, ?_⟩
  have hpair : (wrapper σ s).post.initial_states_received
      = σ.initial_states_received ∧
      (wrapper σ s).set_result_called = false := by
    by_cases hm : (s.device_id, s.key) ∈ σ.wait_initial_states
    · simp only [wrapper, if_pos hm]
      split
      · rename_i hc
        exact absurd h hc.2
      · exact ⟨rfl, rfl⟩
    · rw [wrapper_forward σ s hm]
      exact ⟨rfl, rfl⟩
  refine ⟨hpair.1, ?_, hpair.2, ?_⟩
  · rw [hpair.1]
    exact h
  · have hdef : wait_for_initial_states (wrapper σ s).post timeout resolvesWithin
        = asyncio_wait_for (wrapper σ s).post.initial_states_received
            resolvesWithin := rfl
    rw [hdef, hpair.1]
    rfl

/-- C6 witness: an already-resolved helper processing one more event. -/
theorem spec_C6_witness :
    wrapperE (init []) evBtn = Except.ok (wrapper (init []) evBtn) ∧
      (wrapper (init []) evBtn).post.initial_states_received
        = (init []).initial_states_received ∧
      future_done (wrapper (init []) evBtn).post.initial_states_received
        = true ∧
      (wrapper (init []) evBtn).set_result_called = false ∧
      wait_for_initial_states (wrapper (init []) evBtn).post 5 false
        = wait_for_initial_states (init []) 5 false :=
  spec_C6 (init []) evBtn 5 false (by decide)

/-- C7: in the concrete scenario with tracked identities (1,10) and (1,11)
and deliveries (1,11), (1,10), (1,10): nothing is forwarded after events 1
and 2, exactly event 3 is forwarded, the snapshot map ends with event 1
under key 11 and event 2 under key 10, and the future resolves exactly upon
event 2. -/
theorem spec_C7 :
    (run (init [entTemp, entHumid]) [evHumid]).2 = [] ∧
      (run (init [entTemp, entHumid]) [evHumid, evTemp]).2 = [] ∧
      (run (init [entTemp, entHumid]) [evHumid, evTemp, evTemp2]).2
        = [evTemp2] ∧
      (run (init [entTemp, entHumid])
          [evHumid, evTemp, evTemp2]).1.initial_states 11 = some evHumid ∧
      (run (init [entTemp, entHumid])
          [evHumid, evTemp, evTemp2]).1.initial_states 10 = some evTemp ∧
      future_done
          (run (init [entTemp, entHumid])
            [evHumid]).1.initial_states_received = false ∧
      future_done
          (run (init [entTemp, entHumid])
            [evHumid, evTemp]).1.initial_states_received = true ∧
      future_done
          (run (init [entTemp, entHumid])
            [evHumid, evTemp, evTemp2]).1.initial_states_received = true := by
  decide

/-- C8: the default timeout is 5 seconds, and when the waiting set has not
emptied and the future does not resolve within the deadline, the wait
surfaces the timeout error to its caller. -/
theorem spec_C8 (entities : List EntityInfo) (evs : List EntityState)
    (timeout : ℚ)
    (h : (run (init entities) evs).1.wait_initial_states ≠ ∅) :
    wait_for_initial_states_default_timeout = 5 ∧
      wait_for_initial_states (run (init entities) evs).1 timeout false
        = Except.error AsyncioError.timeoutError := by
  refine ⟨rfl, ?_⟩
  have hnd : ¬ future_done
      (run (init entities) evs).1.initial_states_received = true :=
    fun hd => h (run_done_empty (init entities) evs
      (fun hd0 => (init_done_iff entities).mp hd0) hd)
  have hnone : (run (init entities) evs).1.initial_states_received = none :=
    Option.not_isSome_iff_eq_none.mp hnd
  have hdef : wait_for_initial_states (run (init entities) evs).1 timeout false
      = asyncio_wait_for
          (run (init entities) evs).1.initial_states_received false := rfl
  rw [hdef, hnone]
  rfl

/-- C8 witness: one tracked identity, no events delivered. -/
theorem spec_C8_witness :
    wait_for_initial_states_default_timeout = 5 ∧
      wait_for_initial_states (run (init [entSwitch]) []).1 5 false
        = Except.error AsyncioError.timeoutError :=
  spec_C8 [entSwitch] [] 5 (by decide)

/-- C9: a duplicated identity in the inventory is harmless — the duplicates
collapse to the one element of the waiting set their identity denotes, and
the per-identity entity map retains the last entry in list order. -/
theorem spec_C9 (l l2 : List EntityInfo) (e e2 : EntityInfo)
    (hdup : e2 ∈ l) (hid : idOfEntity e2 = idOfEntity e)
    (hlast : ∀ x ∈ l2, idOfEntity x ≠ idOfEntity e) :
    (init (l ++ e :: l2)).entities_by_id (idOfEntity e) = some e ∧
      ∀ i, i ∈ (init (l ++ e :: l2)).wait_initial_states ↔
        ∃ x ∈ l ++ e :: l2, x.isButton = false ∧ idOfEntity x = i :=
  ⟨mkEntitiesById_last l e l2 hlast, fun i => mem_mkWaitSet _ i⟩

/-- C9 witness: two entries sharing identity (1,7); the second is retained
and the identity is pending once. -/
theorem spec_C9_witness :
    (init [entDupFirst, entDupSecond]).entities_by_id (1, 7)
        = some entDupSecond ∧
      (1, 7) ∈ (init [entDupFirst, entDupSecond]).wait_initial_states :=
  ⟨(spec_C9 [entDupFirst] [] entDupSecond entDupFirst (by decide) (by decide)
      (by decide)).1,
    ((spec_C9 [entDupFirst] [] entDupSecond entDupFirst (by decide)
        (by decide) (by decide)).2 (1, 7)).mpr
      ⟨entDupSecond, by decide, by decide, by decide⟩⟩

/-- C10: whenever the future is resolved after a trace of deliveries, every
identity that was initially tracked has a recorded state under its key. -/
theorem spec_C10 (entities : List EntityInfo) (evs : List EntityState)
    (h : future_done
      (run (init entities) evs).1.initial_states_received = true) :
    ∀ i ∈ (init entities).wait_initial_states,
      ((run (init entities) evs).1.initial_states i.2).isSome = true := by
  intro i hi
  have hempty := run_done_empty (init entities) evs
    (fun hd0 => (init_done_iff entities).mp hd0) h
  refine (run_inv (init entities) evs).2.1 i hi ?_
  rw [hempty]
  exact Finset.not_mem_empty i

/-- C10 witness: both tracked keys are covered at resolution. -/
theorem spec_C10_witness :
    ((run (init [entTemp, entHumid])
      [evHumid, evTemp]).1.initial_states 10).isSome = true :=
  spec_C10 [entTemp, entHumid] [evHumid, evTemp] (by decide) (1, 10)
    (by decide)
